import Mathlib

/- Formal model of the automaker feature-execution orchestrator and its
   git route handlers, with theorems checking the natural-language
   specification against the code.

   Route handlers (switch-branch.ts, send.ts merge handler, commit handler)
   are translated from the TypeScript source: each `execAsync` git call is
   abstracted into an input describing its outcome, and each handler becomes
   a pure function from that environment and the request body to the HTTP
   response (plus, where relevant, the resulting git state, the list of
   executed commands, or the emitted log lines).

   The orchestrator core (AutoModeService: scheduler, executor, plan-approval
   registry) is not part of the available sources - only its integration
   tests and its callers are - so it is modelled from the specification
   text, as marked on each definition. -/

namespace Automaker

/-! ## Character-list string primitives

JavaScript `String.prototype.includes`, `endsWith`, `trim` and
`split('\n')` are modelled as structural functions on `List Char`,
so that every definition evaluates by kernel reduction. -/

/-- Is the first list a prefix of the second? Building block for the
substring tests below. -/
def listPrefixOf : List Char → List Char → Bool
  | [], _ => true
  | _ :: _, [] => false
  | p :: ps, c :: cs => p == c && listPrefixOf ps cs

/-- Does `pat` occur as a contiguous substring of the second list? -/
def containsSub (pat : List Char) : List Char → Bool
  | [] => pat.isEmpty
  | c :: rest => listPrefixOf pat (c :: rest) || containsSub pat rest

/-- Substring containment on strings: model of JavaScript `includes`. -/
def strContains (s pat : String) : Bool :=
  containsSub pat.data s.data

/-- Model of JavaScript `endsWith` on a character list. -/
def endsWithList (pat cs : List Char) : Bool :=
  listPrefixOf pat.reverse cs.reverse

/-- Model of JavaScript `trim`: strip whitespace from both ends. -/
def trimChars (cs : List Char) : List Char :=
  ((cs.dropWhile Char.isWhitespace).reverse.dropWhile Char.isWhitespace).reverse

/-- Model of JavaScript `split('\n')`. -/
def splitOnNl : List Char → List (List Char)
  | [] => [[]]
  | c :: rest =>
    match splitOnNl rest with
    | [] => [[c]]
    | l :: ls => if c == '\n' then [] :: l :: ls else (c :: l) :: ls

/-! ## switch-branch.ts (claim C8)

Translation of `apps/server/src/routes/worktree/routes/switch-branch.ts`.
The git repository visible to the handler is abstracted as the current
branch, the set of branches `git rev-parse --verify` accepts, and the
stdout of `git status --porcelain`. -/

/-- Git repository state visible to the switch-branch endpoint. -/
structure GitRepoState where
  currentBranch : String
  branches : List String
  statusOutput : String
deriving DecidableEq, Repr

/-- The filter applied to each status line in `hasUncommittedChanges`
(switch-branch.ts lines 29-34): blank lines are dropped, and lines
referring to the `.worktrees/` housekeeping directory are dropped. -/
def statusLineCounts (line : List Char) : Bool :=
  if (trimChars line).isEmpty then false
  else if containsSub ".worktrees/".data line || endsWithList ".worktrees".data line then false
  else true

/-- Translation of `hasUncommittedChanges` (switch-branch.ts lines 23-39):
trim the porcelain output, split it into lines, drop blank lines and
lines about `.worktrees/`, and report whether any line remains. -/
def hasUncommittedChanges (stdout : String) : Bool :=
  ((splitOnNl (trimChars stdout.data)).filter statusLineCounts).length > 0

/-- Responses the switch-branch endpoint can produce. -/
inductive SwitchResponse
  | badRequest (error : String)
  | alreadyOn (branch : String)
  | branchMissing (branch : String)
  | uncommitted (code : String)
  | switched (previousBranch currentBranch : String)
deriving DecidableEq, Repr

/-- Translation of `createSwitchBranchHandler` (switch-branch.ts lines
65-147): validate the body, return success without a checkout when the
target equals the current branch, reject a missing branch, reject with
code `UNCOMMITTED_CHANGES` when `hasUncommittedChanges` holds, and
otherwise perform the checkout. The returned state is the repository
state after the handler ran. -/
def createSwitchBranchHandler (g : GitRepoState) (worktreePath branchName : String) :
    SwitchResponse × GitRepoState :=
  if worktreePath = "" then (.badRequest "worktreePath required", g)
  else if branchName = "" then (.badRequest "branchName required", g)
  else if g.currentBranch = branchName then (.alreadyOn branchName, g)
  else if branchName ∈ g.branches then
    if hasUncommittedChanges g.statusOutput then (.uncommitted "UNCOMMITTED_CHANGES", g)
    else (.switched g.currentBranch branchName, { g with currentBranch := branchName })
  else (.branchMissing branchName, g)

/-! ## Commit handler (claim C10)

Translation of `createCommitHandler` from the worktree commit route.
The outcomes of the git subprocess calls are inputs; the handler returns
the response together with the list of git commands it actually ran,
in order, so that frame effects are visible. -/

/-- Outcomes of the git subprocess calls the commit handler may make. -/
structure CommitEnv where
  statusOutput : String
  addOk : Bool
  commitOk : Bool
  headHash : String
  branchName : String
deriving DecidableEq, Repr

/-- Responses the commit endpoint can produce. `successNoCommit` is the
200 response carrying `committed: false`; `successCommitted` carries
`committed: true` with the short hash and branch. -/
inductive CommitResponse
  | badRequest (error : String)
  | successNoCommit (message : String)
  | successCommitted (commitHash branch message : String)
  | serverError (error : String)
deriving DecidableEq, Repr

def gitStatusCmd : String := "git status --porcelain"

def gitAddCmd : String := "git add -A"

def gitCommitCmd (message : String) : String :=
  "git commit -m " ++ message

/-- Translation of `createCommitHandler`: validate the body; run
`git status --porcelain`; when its trimmed output is empty return
success with `committed: false` and the message `No changes to commit`
without running any further git command; otherwise stage everything,
commit, and read back the short hash and branch name. -/
def createCommitHandler (env : CommitEnv) (worktreePath message : String) :
    CommitResponse × List String :=
  if worktreePath = "" ∨ message = "" then
    (.badRequest "worktreePath and message required", [])
  else if (trimChars env.statusOutput.data).isEmpty then
    (.successNoCommit "No changes to commit", [gitStatusCmd])
  else if env.addOk = false then
    (.serverError "git add failed", [gitStatusCmd, gitAddCmd])
  else if env.commitOk = false then
    (.serverError "git commit failed", [gitStatusCmd, gitAddCmd, gitCommitCmd message])
  else
    (.successCommitted (String.mk ((trimChars env.headHash.data).take 8))
        (String.mk (trimChars env.branchName.data)) message,
      [gitStatusCmd, gitAddCmd, gitCommitCmd message])

/-! ## Merge handler (claim C9)

Translation of `createMergeHandler` (send.ts merge route, lines 86-142).
Alongside the response, the model returns the list of log lines the
handler emits through `logError`; the cleanup block (worktree removal
and branch deletion) sits in a `try`/`catch` whose catch body is empty,
so its outcome influences neither the response nor the log. -/

/-- Outcomes of the git subprocess calls the merge handler makes. -/
structure MergeEnv where
  revParseOk : Bool
  mergeOk : Bool
  squashCommitOk : Bool
  worktreeRemoveOk : Bool
  branchDeleteOk : Bool
deriving DecidableEq, Repr

/-- Responses the merge endpoint can produce. -/
inductive MergeResponse
  | badRequest (error : String)
  | mergedOk (mergedBranch : String)
  | serverError (error : String)
deriving DecidableEq, Repr

/-- Translation of `createMergeHandler`: validate the body, read the
current branch, merge `feature/<id>` (plus a commit when squashing),
then attempt to remove `.worktrees/<id>` and delete the branch inside a
try/catch whose catch is empty. Returns the response and the `logError`
lines emitted. -/
def createMergeHandler (env : MergeEnv) (projectPath featureId : String) (squash : Bool) :
    MergeResponse × List String :=
  if projectPath = "" ∨ featureId = "" then
    (.badRequest "projectPath and featureId required", [])
  else if env.revParseOk = false then
    (.serverError "rev-parse failed", ["Merge worktree failed"])
  else if env.mergeOk = false then
    (.serverError "merge failed", ["Merge worktree failed"])
  else if squash && env.squashCommitOk = false then
    (.serverError "commit failed", ["Merge worktree failed"])
  else
    (.mergedOk ("feature/" ++ featureId), [])

/-! ## Orchestrator data model (claims C1-C7)

The orchestrator core (AutoModeService) is not among the available
sources, so the definitions below are modelled from the specification
text (sections 3, 4.1, 4.2, 4.4, 5) and checked against the behaviour
its integration tests demand. -/

/-- Modelled from the spec: the feature status values of the data model
(section 3), for the absent auto-mode-service implementation. -/
inductive FeatureStatus
  | pending
  | in_progress
  | waiting_approval
  | backlog
  | completed
deriving DecidableEq, Repr

/-- Modelled from the spec: the planning-mode values (section 3). -/
inductive PlanningMode
  | skip
  | lite
  | spec
  | full
deriving DecidableEq, Repr

/-- Modelled from the spec: a durable feature record (section 3), for the
absent feature-store and executor implementation. `planGenerated` is the
persisted resumption marker of section 9 recording that a plan was
already produced. -/
structure Feature where
  id : String
  status : FeatureStatus
  planningMode : PlanningMode := PlanningMode.skip
  requirePlanApproval : Bool := false
  planGenerated : Bool := false
  planText : Option String := none
  model : Option String := none
deriving DecidableEq, Repr

/-- Modelled from the spec: the statuses in which a run has reached a
terminal state for that run and releases its scheduler slot
(sections 4.1 and 4.2). -/
def isRunExit : FeatureStatus → Bool
  | .waiting_approval => true
  | .backlog => true
  | .completed => true
  | _ => false

/-- Modelled from the spec: overwrite the status of the feature with the
given id in the durable store (the executor's status-transition write). -/
def setStatus (store : List Feature) (fid : String) (st : FeatureStatus) : List Feature :=
  store.map (fun f => if f.id = fid then { f with status := st } else f)

/-- Modelled from the spec: the events the orchestrator emits on the
event bus (sections 4.2 and 6), reduced to the payloads the claims
mention. -/
inductive Event
  | errorEvent (featureId : String) (message : String)
  | planningStarted (mode : PlanningMode)
  | planningComplete (mode : PlanningMode)
  | autoModeStarted
  | autoModeStopped
deriving DecidableEq, Repr

/-- Modelled from the spec: the error taxonomy surfaced to callers
(sections 4.2 and 7), for the absent executor implementation. -/
inductive ExecError
  | not_found
  | already_running
  | worktree_failure
  | provider_failure
  | cancelled
deriving DecidableEq, Repr

/-- Modelled from the spec: the outcome of one provider invocation
(section 6): a terminal success carrying the accumulated text, a thrown
or returned error, or a cancellation which is or is not user-initiated. -/
inductive ProviderOutcome
  | success (output : String)
  | failure (msg : String)
  | cancelled (userInitiated : Bool)
deriving DecidableEq, Repr

/-- Modelled from the spec: the in-band completion marker for each
planning mode (section 4.2 step 4). -/
def planMarker : PlanningMode → String
  | .lite => "[PLAN_GENERATED]"
  | _ => "[SPEC_GENERATED]"

/-- The text after the first occurrence of `pat`, or `none` when `pat`
does not occur. -/
def afterSub (pat : List Char) : List Char → Option (List Char)
  | [] => if pat.isEmpty then some [] else none
  | c :: rest =>
    if listPrefixOf pat (c :: rest) then some (List.drop pat.length (c :: rest))
    else afterSub pat rest

/-- Modelled from the spec: marker detection in the streamed planning
text (section 4.2 step 4). -/
def detectMarker (mode : PlanningMode) (text : String) : Bool :=
  (afterSub (planMarker mode).data text.data).isSome

/-- Does the text contain the planning marker followed by further,
nonempty text? (The scenario of section 8 for claim C6.) -/
def hasTextAfterMarker (mode : PlanningMode) (text : String) : Bool :=
  match afterSub (planMarker mode).data text.data with
  | some (_ :: _) => true
  | _ => false

/-- Modelled from the spec: the inputs of one executor run that come
from its collaborators (sections 4.2 and 6) - whether worktree isolation
was requested and how the worktree creation went, the outcomes of the
planning and implementation provider invocations, and whether the
project requires a completion review (step 6). -/
structure RunEnv where
  useWorktrees : Bool
  requireCompletionReview : Bool
  worktreeResult : Except String Unit
  planOutcome : ProviderOutcome
  implOutcome : ProviderOutcome
deriving Repr

/-- Modelled from the spec: how a single executor run ended
(section 4.2): reached a terminal provider success (step 6), was
converted from a failure into a backlog transition (step 7), suspended
awaiting plan approval (step 4), or was cancelled by the user (step 8). -/
inductive RunOutcome
  | succeeded
  | failed (msg : String)
  | suspendedForApproval
  | cancelledByUser
deriving DecidableEq, Repr

/-- Modelled from the spec: the observable result of one executor run -
the persisted feature record, the emitted events, how the run ended, and
whether a PendingApproval was registered. -/
structure RunResult where
  feature : Feature
  events : List Event
  outcome : RunOutcome
  registeredApproval : Bool
deriving DecidableEq, Repr

/-- Modelled from the spec: step 2 of the executor algorithm - the
worktree is materialized only when isolation was requested. -/
def worktreeStep (env : RunEnv) : Except String Unit :=
  if env.useWorktrees then env.worktreeResult else Except.ok ()

/-- Modelled from the spec: steps 5-8 of the executor algorithm - the
implementation provider call. A terminal success persists status
`waiting_approval` when the project requires completion review and
`completed` otherwise; a failure or non-user cancellation persists
`backlog` and emits an error event; a user cancellation reverts to
`pending` (step 8, no material progress was persisted). -/
def implPhase (env : RunEnv) (f : Feature) (evs : List Event) : RunResult :=
  match env.implOutcome with
  | .success _ =>
    { feature := { f with status :=
        if env.requireCompletionReview then .waiting_approval else .completed },
      events := evs, outcome := .succeeded, registeredApproval := false }
  | .failure msg =>
    { feature := { f with status := .backlog },
      events := evs ++ [.errorEvent f.id msg],
      outcome := .failed msg, registeredApproval := false }
  | .cancelled true =>
    { feature := { f with status := .pending },
      events := evs, outcome := .cancelledByUser, registeredApproval := false }
  | .cancelled false =>
    { feature := { f with status := .backlog },
      events := evs ++ [.errorEvent f.id "Execution cancelled"],
      outcome := .failed "Execution cancelled", registeredApproval := false }

/-- Modelled from the spec: step 4 of the executor algorithm - the
planning provider call. On detecting the completion marker, either
register a PendingApproval, persist `waiting_approval` and suspend the
run (when `requirePlanApproval` is true), or proceed immediately to the
implementation step with the generated plan as context. Failures and
non-user cancellations become a backlog transition plus an error event. -/
def planningPhase (env : RunEnv) (f : Feature) : RunResult :=
  match env.planOutcome with
  | .failure msg =>
    { feature := { f with status := .backlog },
      events := [.planningStarted f.planningMode, .errorEvent f.id msg],
      outcome := .failed msg, registeredApproval := false }
  | .cancelled true =>
    { feature := { f with status := .pending },
      events := [.planningStarted f.planningMode],
      outcome := .cancelledByUser, registeredApproval := false }
  | .cancelled false =>
    { feature := { f with status := .backlog },
      events := [.planningStarted f.planningMode, .errorEvent f.id "Execution cancelled"],
      outcome := .failed "Execution cancelled", registeredApproval := false }
  | .success text =>
    if detectMarker f.planningMode text then
      if f.requirePlanApproval then
        { feature :=
            { f with
              status := FeatureStatus.waiting_approval
              planGenerated := true
              planText := some text },
          events := [.planningStarted f.planningMode, .planningComplete f.planningMode],
          outcome := .suspendedForApproval, registeredApproval := true }
      else
        implPhase env { f with planGenerated := true, planText := some text }
          [.planningStarted f.planningMode, .planningComplete f.planningMode]
    else
      implPhase env { f with planText := some text } [.planningStarted f.planningMode]

/-- Modelled from the spec: one full executor run for an already loaded
feature (section 4.2 steps 2-8): materialize the worktree when
requested, persist `in_progress`, run the planning phase unless the
mode is `skip` or a plan was already generated, then the implementation
phase. -/
def runFeature (env : RunEnv) (f : Feature) : RunResult :=
  match worktreeStep env with
  | .error msg =>
    { feature := { f with status := .backlog },
      events := [.errorEvent f.id msg],
      outcome := .failed msg, registeredApproval := false }
  | .ok _ =>
    let f1 : Feature := { f with status := FeatureStatus.in_progress }
    if f1.planningMode ≠ PlanningMode.skip ∧ f1.planGenerated = false then
      planningPhase env f1
    else
      implPhase env f1 []

/-! ## Scheduler (claims C1, C2, C7) -/

/-- Modelled from the spec: an active-execution key of the absent
scheduler, `(projectPath, featureId)` (section 4.1). -/
abbrev ExecKey := String × String

/-- Modelled from the spec: the duplicate-dispatch guard at the entry of
`executeFeature` (section 4.1) - a checked-then-inserted in-memory set
of active execution keys inside a single-threaded critical section.
Returns the updated key set together with the synchronous call result. -/
def executeFeatureEntry (active : List ExecKey) (key : ExecKey) :
    List ExecKey × Except ExecError Unit :=
  if key ∈ active then (active, .error .already_running)
  else (key :: active, .ok ())

/-- Modelled from the spec: the process-wide orchestrator state for one
project - the durable feature store, the active-execution id set, the
emitted events and whether the auto loop is running (sections 3 and 5). -/
structure OrchState where
  store : List Feature
  active : List String
  events : List Event
  autoLoopRunning : Bool
deriving Repr

/-- Modelled from the spec: a full `executeFeature` call (sections 4.1,
4.2, 7): reject `already_running` synchronously before any state
mutation; when the feature id is unknown, emit an error event and return
normally; otherwise run the executor, persist its resulting feature
record and events, and release the slot. Failures inside the run are
absorbed - the only synchronous rejection is `already_running`. -/
def executeFeature (env : RunEnv) (s : OrchState) (fid : String) :
    OrchState × Except ExecError Unit :=
  if fid ∈ s.active then (s, .error .already_running)
  else
    match s.store.find? (fun f => f.id == fid) with
    | none =>
      ({ s with events := s.events ++ [.errorEvent fid ("Feature not found: " ++ fid)] },
        .ok ())
    | some f =>
      let r := runFeature env f
      ({ s with
          store := s.store.map (fun g => if g.id == fid then r.feature else g),
          events := s.events ++ r.events },
        .ok ())

/-- Modelled from the spec: the state the auto loop supervises for one
project (section 4.1) - the concurrency ceiling given to
`startAutoLoop`, the durable store it scans, and the ids of the
executions currently active for this loop. -/
structure AutoLoopState where
  maxConcurrency : Nat
  store : List Feature
  active : List String
deriving Repr

/-- Modelled from the spec: one transition of the auto loop
(section 4.1). `dispatch` starts a pending feature when it is not
already running and fewer than `maxConcurrency` executions are active,
atomically inserting it into the active set and persisting
`in_progress`; `finish` releases a slot, which happens only when that
run reaches a terminal state for the run. -/
inductive AutoStep : AutoLoopState → AutoLoopState → Prop
  | dispatch (s : AutoLoopState) (f : Feature)
      (hmem : f ∈ s.store) (hpending : f.status = .pending)
      (hnotactive : f.id ∉ s.active)
      (hcap : s.active.length < s.maxConcurrency) :
      AutoStep s { s with
        store := setStatus s.store f.id .in_progress,
        active := f.id :: s.active }
  | finish (s : AutoLoopState) (fid : String) (st : FeatureStatus)
      (hactive : fid ∈ s.active) (hterm : isRunExit st = true) :
      AutoStep s { s with
        store := setStatus s.store fid st,
        active := s.active.erase fid }

/-- Modelled from the spec: the scheduler state `stopAutoLoop` acts on -
the active execution keys and the loop flag (section 4.1). -/
structure SchedulerState where
  active : List ExecKey
  autoLoopRunning : Bool
deriving DecidableEq, Repr

/-- Modelled from the spec: `stopAutoLoop` (section 4.1) - signal every
in-flight execution, stop the loop, and return the number of executions
that were still active at the moment of the call. Total: it never
throws. -/
def stopAutoLoop (s : SchedulerState) : Nat × SchedulerState :=
  (s.active.length, { active := [], autoLoopRunning := false })

/-! ## Plan-approval registry (claim C5) -/

/-- Modelled from the spec: an in-memory pending-approval entry keyed by
feature id, holding the generated plan text (section 3). -/
structure PendingApproval where
  featureId : String
  plan : String
deriving DecidableEq, Repr

/-- Modelled from the spec: the registry state `resolvePlanApproval`
acts on - the in-memory pending table and the durable store it recovers
from (section 4.4). -/
structure ApprovalState where
  pendings : List PendingApproval
  store : List Feature
deriving Repr

/-- The structured result the approve-plan surface returns
(`{success, error}` as consumed by createApprovePlanHandler). -/
structure ResolveResult where
  success : Bool
  error : Option String := none
deriving DecidableEq, Repr

/-- Modelled from the spec: look up the in-memory pending entry of the
absent registry for a feature id (section 4.4). -/
def lookupPending (ps : List PendingApproval) (fid : String) : Option PendingApproval :=
  ps.find? (fun p => p.featureId == fid)

/-- Modelled from the spec: look up a feature record in the durable
store (section 6, FeatureStore.get). -/
def findFeature (store : List Feature) (fid : String) : Option Feature :=
  store.find? (fun f => f.id == fid)

/-- Modelled from the spec: durable state indicating a generated,
unapproved plan - status `waiting_approval` with a previously generated
plan recorded (section 4.4, restart-recovery path). -/
def recoverableFromStore (store : List Feature) (fid : String) : Bool :=
  match findFeature store fid with
  | some f => f.status == FeatureStatus.waiting_approval && f.planGenerated
  | none => false

/-- Modelled from the spec: the message of the `no_pending_approval`
failure, containing the phrase the tests assert on (sections 4.4, 8). -/
def noPendingApprovalMsg (fid : String) : String :=
  "No pending approval for feature " ++ fid

/-- Modelled from the spec: discard the pending entry for a feature id
once resolved (section 4.4). -/
def clearPending (ps : List PendingApproval) (fid : String) : List PendingApproval :=
  ps.filter (fun p => p.featureId != fid)

/-- Modelled from the spec: an approved resolution resumes the suspended
run at the implementation step with the chosen plan folded into the
durable record (section 4.4). -/
def resumeWithPlan (s : ApprovalState) (fid plan : String) : ApprovalState :=
  { pendings := clearPending s.pendings fid,
    store := s.store.map (fun f =>
      if f.id == fid then { f with status := .in_progress, planText := some plan } else f) }

/-- Modelled from the spec: a rejected resolution sets status `backlog`
and does not resume execution (section 4.4). -/
def rejectPlan (s : ApprovalState) (fid : String) : ApprovalState :=
  { pendings := clearPending s.pendings fid,
    store := setStatus s.store fid .backlog }

/-- Modelled from the spec: `resolvePlanApproval` (section 4.4). Look up
the pending entry; when absent, reload the feature from durable storage
and, when its status is `waiting_approval` with a generated plan
recorded, synthesize the resolution from durable state (restart
recovery); when neither exists, fail with the `No pending approval`
error. `editedPlan` replaces the stored plan when provided; `feedback`
accompanies a rejection. -/
def resolvePlanApproval (s : ApprovalState) (fid : String) (approved : Bool)
    (editedPlan _feedback : Option String) : ResolveResult × ApprovalState :=
  match lookupPending s.pendings fid with
  | some p =>
    if approved then ({ success := true }, resumeWithPlan s fid (editedPlan.getD p.plan))
    else ({ success := true }, rejectPlan s fid)
  | none =>
    match findFeature s.store fid with
    | some f =>
      if f.status == FeatureStatus.waiting_approval && f.planGenerated then
        if approved then
          ({ success := true }, resumeWithPlan s fid (editedPlan.getD (f.planText.getD "")))
        else ({ success := true }, rejectPlan s fid)
      else ({ success := false, error := some (noPendingApprovalMsg fid) }, s)
    | none => ({ success := false, error := some (noPendingApprovalMsg fid) }, s)

/-! ## Helper lemmas -/

/-- A list is a prefix of itself followed by anything. -/
theorem listPrefixOf_append (l rest : List Char) : listPrefixOf l (l ++ rest) = true := by
  induction l with
  | nil => rfl
  | cons c cs ih => simp [listPrefixOf, ih]

/-- A prefix occurrence is in particular a substring occurrence. -/
theorem containsSub_of_prefixOf (pat hay : List Char)
    (h : listPrefixOf pat hay = true) : containsSub pat hay = true := by
  cases hay with
  | nil =>
    cases pat with
    | nil => rfl
    | cons c cs => simp [listPrefixOf] at h
  | cons c rest => simp [containsSub, h]

/-- The `no_pending_approval` error message contains the phrase the
tests look for. -/
theorem contains_noPendingMsg (fid : String) :
    strContains (noPendingApprovalMsg fid) "No pending approval" = true := by
  unfold strContains noPendingApprovalMsg
  rw [String.data_append]
  apply containsSub_of_prefixOf
  have hsplit : "No pending approval for feature ".data =
      "No pending approval".data ++ " for feature ".data := rfl
  rw [hsplit, List.append_assoc]
  exact listPrefixOf_append _ _

/-! ## Theorems for the route handlers (claims C8, C9, C10) -/

/-- C8 (counterexample): the claim quantifies over every branch-switch
request, but two kinds of request with uncommitted changes are not
answered with `UNCOMMITTED_CHANGES`: a request whose target equals the
current branch is answered with success (`Already on branch`, no
checkout and no refusal), and a request for a nonexistent branch is
refused with the `does not exist` error before the uncommitted-changes
check runs. Both are exhibited on a repository with the dirty status
line ` M file.txt`. -/
theorem c8_counterexample :
    (hasUncommittedChanges " M file.txt" = true ∧
      createSwitchBranchHandler ⟨"main", ["main"], " M file.txt"⟩ "/p" "main" =
        (.alreadyOn "main", ⟨"main", ["main"], " M file.txt"⟩)) ∧
    createSwitchBranchHandler ⟨"main", ["main"], " M file.txt"⟩ "/p" "dev" =
      (.branchMissing "dev", ⟨"main", ["main"], " M file.txt"⟩) := by
  refine ⟨⟨?_, ?_⟩, ?_⟩ <;> rfl

/-- C8 (amended): for every branch-switch request with both parameters
provided whose target branch exists and differs from the current branch,
the switch is refused with code `UNCOMMITTED_CHANGES` and no checkout is
performed exactly when the working directory has uncommitted changes
after excluding every status line referring to `.worktrees/`; when that
check is clean (in particular when all changes are under `.worktrees/`)
the checkout happens. -/
theorem c8_switch_blocked_iff_dirty (g : GitRepoState) (worktreePath branchName : String)
    (hwp : worktreePath ≠ "") (hbn : branchName ≠ "")
    (hdiff : g.currentBranch ≠ branchName) (hex : branchName ∈ g.branches) :
    (createSwitchBranchHandler g worktreePath branchName =
        (.uncommitted "UNCOMMITTED_CHANGES", g) ↔
      hasUncommittedChanges g.statusOutput = true) ∧
    (hasUncommittedChanges g.statusOutput = false →
      createSwitchBranchHandler g worktreePath branchName =
        (.switched g.currentBranch branchName, { g with currentBranch := branchName })) := by
  simp only [createSwitchBranchHandler, if_neg hwp, if_neg hbn, if_neg hdiff, if_pos hex]
  cases h : hasUncommittedChanges g.statusOutput <;> simp [h]

/-- Witness for C8 (amended) at a repository whose only change is under
`.worktrees/`: the check is clean and the switch goes through. -/
theorem c8_switch_blocked_iff_dirty_witness :
    (createSwitchBranchHandler ⟨"main", ["main", "dev"], " M .worktrees/f1/x.txt"⟩ "/p" "dev" =
        (.uncommitted "UNCOMMITTED_CHANGES",
          ⟨"main", ["main", "dev"], " M .worktrees/f1/x.txt"⟩) ↔
      hasUncommittedChanges " M .worktrees/f1/x.txt" = true) ∧
    (hasUncommittedChanges " M .worktrees/f1/x.txt" = false →
      createSwitchBranchHandler ⟨"main", ["main", "dev"], " M .worktrees/f1/x.txt"⟩ "/p" "dev" =
        (.switched "main" "dev", ⟨"dev", ["main", "dev"], " M .worktrees/f1/x.txt"⟩)) :=
  c8_switch_blocked_iff_dirty ⟨"main", ["main", "dev"], " M .worktrees/f1/x.txt"⟩ "/p" "dev"
    (by decide) (by decide) (by decide) (by decide)

/-- C9 (counterexample): with a merge that succeeds and a worktree
removal that fails, the handler reports success and its `logError` log
is empty - the cleanup failure is not logged, refuting the claim's
"is logged" part at this input. -/
theorem c9_counterexample :
    createMergeHandler ⟨true, true, true, false, true⟩ "/p" "f1" false =
      (.mergedOk "feature/f1", ([] : List String)) := rfl

/-- C9 (amended): for every merge operation on branch `feature/<id>`
that itself succeeds, a subsequent failure while removing the worktree
or deleting the branch is silently swallowed (the empty catch emits no
log line) and never escalated: the handler reports success regardless of
the cleanup outcomes. -/
theorem c9_cleanup_never_escalates (env : MergeEnv) (projectPath featureId : String)
    (squash : Bool) (hpp : projectPath ≠ "") (hfid : featureId ≠ "")
    (hrev : env.revParseOk = true) (hmerge : env.mergeOk = true)
    (hsq : squash = true → env.squashCommitOk = true) :
    createMergeHandler env projectPath featureId squash =
      (.mergedOk ("feature/" ++ featureId), []) := by
  have h1 : ¬ (projectPath = "" ∨ featureId = "") := by
    rintro (h | h)
    · exact hpp h
    · exact hfid h
  cases hs : squash
  · simp [createMergeHandler, h1, hrev, hmerge]
  · simp [createMergeHandler, h1, hrev, hmerge, hsq hs]

/-- Witness for C9 (amended): a squash merge whose worktree removal and
branch deletion both fail still reports success with no log output. -/
theorem c9_cleanup_never_escalates_witness :
    createMergeHandler ⟨true, true, true, false, false⟩ "/p" "f1" true =
      (.mergedOk ("feature/" ++ "f1"), []) :=
  c9_cleanup_never_escalates ⟨true, true, true, false, false⟩ "/p" "f1" true
    (by decide) (by decide) rfl rfl (fun _ => rfl)

/-- C10: for every commit request with both fields provided on a
worktree whose `git status --porcelain` output is empty, the handler
returns success with `committed: false` and the message
`No changes to commit`, and the only git command it ran is the
read-only status query - no staging and no commit, so the repository
is left unchanged. -/
theorem c10_commit_no_changes (env : CommitEnv) (worktreePath message : String)
    (hwp : worktreePath ≠ "") (hmsg : message ≠ "")
    (hstatus : env.statusOutput = "") :
    createCommitHandler env worktreePath message =
      (.successNoCommit "No changes to commit", [gitStatusCmd]) := by
  have h1 : ¬ (worktreePath = "" ∨ message = "") := by
    rintro (h | h)
    · exact hwp h
    · exact hmsg h
  simp [createCommitHandler, h1, hstatus, trimChars]

/-- Witness for C10 at a concrete clean worktree. -/
theorem c10_commit_no_changes_witness :
    createCommitHandler ⟨"", true, true, "abcdef1234", "main"⟩ "/p/wt" "fix things" =
      (.successNoCommit "No changes to commit", [gitStatusCmd]) :=
  c10_commit_no_changes ⟨"", true, true, "abcdef1234", "main"⟩ "/p/wt" "fix things"
    (by decide) (by decide) rfl

/-! ## Executor-run lemmas -/

/-- Exhaustive description of the implementation phase: the feature id
is preserved, the status is never left `in_progress`, a succeeded
outcome ends in `waiting_approval` or `completed`, a failed outcome ends
in `backlog` with an error event carrying the id and message, the phase
never suspends, and it registers no approval. -/
theorem implPhase_spec (env : RunEnv) (f : Feature) (evs : List Event) :
    (implPhase env f evs).feature.id = f.id ∧
    (implPhase env f evs).feature.status ≠ .in_progress ∧
    ((implPhase env f evs).outcome = .succeeded →
      (implPhase env f evs).feature.status = .waiting_approval ∨
      (implPhase env f evs).feature.status = .completed) ∧
    (∀ msg, (implPhase env f evs).outcome = .failed msg →
      (implPhase env f evs).feature.status = .backlog ∧
      Event.errorEvent f.id msg ∈ (implPhase env f evs).events) ∧
    (implPhase env f evs).outcome ≠ .suspendedForApproval ∧
    (implPhase env f evs).registeredApproval = false := by
  rcases hio : env.implOutcome with out | msg | user
  · cases hr : env.requireCompletionReview <;> simp [implPhase, hio, hr]
  · simp [implPhase, hio]
  · cases user <;> simp [implPhase, hio]

/-- Exhaustive description of the planning phase, in the same shape as
`implPhase_spec` plus the suspension clause: a suspended run has
registered a PendingApproval and parked in `waiting_approval`. -/
theorem planningPhase_spec (env : RunEnv) (f : Feature) :
    (planningPhase env f).feature.id = f.id ∧
    (planningPhase env f).feature.status ≠ .in_progress ∧
    ((planningPhase env f).outcome = .succeeded →
      (planningPhase env f).feature.status = .waiting_approval ∨
      (planningPhase env f).feature.status = .completed) ∧
    (∀ msg, (planningPhase env f).outcome = .failed msg →
      (planningPhase env f).feature.status = .backlog ∧
      Event.errorEvent f.id msg ∈ (planningPhase env f).events) ∧
    ((planningPhase env f).outcome = .suspendedForApproval →
      (planningPhase env f).registeredApproval = true ∧
      (planningPhase env f).feature.status = .waiting_approval) := by
  rcases hpo : env.planOutcome with text | msg | user
  · cases hd : detectMarker f.planningMode text
    · obtain ⟨h1, h2, h3, h4, h5, h6⟩ :=
        implPhase_spec env { f with planText := some text } [.planningStarted f.planningMode]
      simp only [planningPhase, hpo, hd, Bool.false_eq_true, if_false]
      exact ⟨h1, h2, h3, h4, fun hs => absurd hs h5⟩
    · cases ha : f.requirePlanApproval
      · simp only [planningPhase, hpo, hd, ha, Bool.false_eq_true, if_true, if_false]
        obtain ⟨h1, h2, h3, h4, h5, h6⟩ :=
          implPhase_spec env
            { f with
              requirePlanApproval := false
              planGenerated := true
              planText := some text }
            [.planningStarted f.planningMode, .planningComplete f.planningMode]
        exact ⟨h1, h2, h3, h4, fun hs => absurd hs h5⟩
      · simp [planningPhase, hpo, hd, ha]
  · simp [planningPhase, hpo]
  · cases user <;> simp [planningPhase, hpo]

/-- Exhaustive description of one full executor run (claims C3, C4,
C6 rest on it): id preserved, never left `in_progress`, success ends in
`waiting_approval` or `completed`, failure ends in `backlog` with an
error event carrying the id and the failure message, and suspension has
registered an approval and parked in `waiting_approval`. -/
theorem runFeature_spec (env : RunEnv) (f : Feature) :
    (runFeature env f).feature.id = f.id ∧
    (runFeature env f).feature.status ≠ .in_progress ∧
    ((runFeature env f).outcome = .succeeded →
      (runFeature env f).feature.status = .waiting_approval ∨
      (runFeature env f).feature.status = .completed) ∧
    (∀ msg, (runFeature env f).outcome = .failed msg →
      (runFeature env f).feature.status = .backlog ∧
      Event.errorEvent f.id msg ∈ (runFeature env f).events) ∧
    ((runFeature env f).outcome = .suspendedForApproval →
      (runFeature env f).registeredApproval = true ∧
      (runFeature env f).feature.status = .waiting_approval) := by
  rcases hw : worktreeStep env with msg | u
  · simp [runFeature, hw]
  · simp only [runFeature, hw]
    split
    · obtain ⟨h1, h2, h3, h4, h5⟩ :=
        planningPhase_spec env { f with status := FeatureStatus.in_progress }
      exact ⟨h1, h2, h3, h4, h5⟩
    · obtain ⟨h1, h2, h3, h4, h5, h6⟩ :=
        implPhase_spec env { f with status := FeatureStatus.in_progress } []
      exact ⟨h1, h2, h3, h4, fun hs => absurd hs h5⟩

/-! ## Theorems for the scheduler and executor (claims C1, C3, C7) -/

/-- C1: when an execution for the same `(projectPath, featureId)` key is
already active, a second `executeFeature` invocation fails synchronously
with `already_running`, the active-execution set is returned unchanged
(no state mutation happened), and the first execution's key is still
active, so the first run proceeds unaffected. -/
theorem c1_duplicate_execution_rejected (active : List ExecKey) (key : ExecKey)
    (h : key ∈ active) :
    executeFeatureEntry active key = (active, .error .already_running) ∧
    key ∈ (executeFeatureEntry active key).1 := by
  simp [executeFeatureEntry, h]

/-- Witness for C1: a duplicate dispatch of `feature-dup` is rejected. -/
theorem c1_duplicate_execution_rejected_witness :
    executeFeatureEntry [("/proj", "feature-dup")] ("/proj", "feature-dup") =
      ([("/proj", "feature-dup")], .error .already_running) ∧
    ("/proj", "feature-dup") ∈
      (executeFeatureEntry [("/proj", "feature-dup")] ("/proj", "feature-dup")).1 :=
  c1_duplicate_execution_rejected [("/proj", "feature-dup")] ("/proj", "feature-dup")
    (by decide)

/-- C3: for a feature in status `pending`, a run that succeeds leaves
the persisted status in `waiting_approval` or `completed`, a run that
fails leaves it in `backlog`, and after the run returns the status is
never left as `in_progress`. -/
theorem c3_run_final_status (env : RunEnv) (f : Feature)
    (hf : f.status = .pending) :
    ((runFeature env f).outcome = .succeeded →
      (runFeature env f).feature.status = .waiting_approval ∨
      (runFeature env f).feature.status = .completed) ∧
    (∀ msg, (runFeature env f).outcome = .failed msg →
      (runFeature env f).feature.status = .backlog) ∧
    (runFeature env f).feature.status ≠ .in_progress := by
  obtain ⟨h1, h2, h3, h4, h5⟩ := runFeature_spec env f
  exact ⟨h3, fun msg hm => (h4 msg hm).1, h2⟩

/-- Witness for C3: a pending feature with a provider that succeeds. -/
theorem c3_run_final_status_witness :
    ((runFeature ⟨false, true, Except.ok (), .success "", .success "Implemented"⟩
        { id := "feature-exec-1", status := FeatureStatus.pending }).outcome = .succeeded →
      (runFeature ⟨false, true, Except.ok (), .success "", .success "Implemented"⟩
        { id := "feature-exec-1", status := FeatureStatus.pending }).feature.status =
          .waiting_approval ∨
      (runFeature ⟨false, true, Except.ok (), .success "", .success "Implemented"⟩
        { id := "feature-exec-1", status := FeatureStatus.pending }).feature.status =
          .completed) ∧
    (∀ msg,
      (runFeature ⟨false, true, Except.ok (), .success "", .success "Implemented"⟩
        { id := "feature-exec-1", status := FeatureStatus.pending }).outcome = .failed msg →
      (runFeature ⟨false, true, Except.ok (), .success "", .success "Implemented"⟩
        { id := "feature-exec-1", status := FeatureStatus.pending }).feature.status =
          .backlog) ∧
    (runFeature ⟨false, true, Except.ok (), .success "", .success "Implemented"⟩
      { id := "feature-exec-1", status := FeatureStatus.pending }).feature.status ≠
        .in_progress :=
  c3_run_final_status ⟨false, true, Except.ok (), .success "", .success "Implemented"⟩
    { id := "feature-exec-1", status := FeatureStatus.pending } rfl

/-- C7: `stopAutoLoop` returns exactly the number of executions that
were active at the moment of the call (hence at most k when k were
active), returns 0 when none are active, never throws (it is a total
function into a plain pair), and is idempotent: a second call right
after returns 0. -/
theorem c7_stop_auto_loop (s : SchedulerState) :
    (stopAutoLoop s).1 = s.active.length ∧
    (s.active = [] → (stopAutoLoop s).1 = 0) ∧
    (stopAutoLoop s).1 ≤ s.active.length ∧
    (stopAutoLoop (stopAutoLoop s).2).1 = 0 := by
  refine ⟨rfl, ?_, le_refl _, rfl⟩
  intro h
  simp [stopAutoLoop, h]

/-- Witness for C7 with two active executions. -/
theorem c7_stop_auto_loop_witness :
    (stopAutoLoop ⟨[("/p", "a"), ("/p", "b")], true⟩).1 =
      ([("/p", "a"), ("/p", "b")] : List ExecKey).length ∧
    (([("/p", "a"), ("/p", "b")] : List ExecKey) = [] →
      (stopAutoLoop ⟨[("/p", "a"), ("/p", "b")], true⟩).1 = 0) ∧
    (stopAutoLoop ⟨[("/p", "a"), ("/p", "b")], true⟩).1 ≤
      ([("/p", "a"), ("/p", "b")] : List ExecKey).length ∧
    (stopAutoLoop (stopAutoLoop ⟨[("/p", "a"), ("/p", "b")], true⟩).2).1 = 0 :=
  c7_stop_auto_loop ⟨[("/p", "a"), ("/p", "b")], true⟩

/-- Updating the found feature by its id keeps it findable: the mapped
store's lookup returns the replacement record. -/
theorem find_map_update (store : List Feature) (fid : String) (new old : Feature)
    (hfind : store.find? (fun g => g.id == fid) = some old) (hid : new.id = old.id) :
    (store.map (fun g => if g.id == fid then new else g)).find? (fun g => g.id == fid) =
      some new := by
  induction store with
  | nil => simp at hfind
  | cons a l ih =>
    cases ha : (a.id == fid)
    · rw [List.find?_cons_of_neg _ (by simp [ha])] at hfind
      simp only [List.map_cons, ha, Bool.false_eq_true, if_false]
      rw [List.find?_cons_of_neg _ (by simp [ha])]
      exact ih hfind
    · rw [List.find?_cons_of_pos _ (by simp [ha])] at hfind
      have haold : a = old := by injection hfind
      have hnew : (new.id == fid) = true := by
        rw [hid, ← haold]
        exact ha
      simp only [List.map_cons, ha, if_true]
      rw [List.find?_cons_of_pos _ (by simp [hnew])]

/-- Text after the marker implies the marker is detected. -/
theorem detect_of_hasTextAfter (mode : PlanningMode) (text : String)
    (h : hasTextAfterMarker mode text = true) : detectMarker mode text = true := by
  rcases ha : afterSub (planMarker mode).data text.data with _ | l
  · simp [hasTextAfterMarker, ha] at h
  · simp [detectMarker, ha]

/-! ## Theorems for fault isolation and the lite-planning scenario
(claims C4, C6) -/

/-- C4: for every failure inside a single feature's run (provider error,
worktree error, or non-user-initiated cancellation - exactly the runs
whose outcome is `failed msg`), the full `executeFeature` call returns
`.ok` (no exception reaches the caller), the persisted record for this
feature has status `backlog` and stays findable, an error event carrying
the feature id and the failure message is emitted, and the scheduler is
untouched: the active set and the auto-loop flag are unchanged and every
sibling feature record is preserved, so the auto loop keeps processing
the remaining pending features. -/
theorem c4_failure_isolated (env : RunEnv) (s : OrchState) (fid : String)
    (f : Feature) (msg : String)
    (hactive : fid ∉ s.active)
    (hfind : s.store.find? (fun g => g.id == fid) = some f)
    (hfail : (runFeature env f).outcome = .failed msg) :
    (executeFeature env s fid).2 = .ok () ∧
    (executeFeature env s fid).1.active = s.active ∧
    (executeFeature env s fid).1.autoLoopRunning = s.autoLoopRunning ∧
    Event.errorEvent f.id msg ∈ (executeFeature env s fid).1.events ∧
    (executeFeature env s fid).1.store.find? (fun g => g.id == fid) =
      some (runFeature env f).feature ∧
    (runFeature env f).feature.status = .backlog ∧
    (∀ g, g ∈ s.store → g.id ≠ fid → g ∈ (executeFeature env s fid).1.store) := by
  obtain ⟨hid, hnip, hsucc, hfailed, hsusp⟩ := runFeature_spec env f
  have hff : f.id = fid := by
    have := List.find?_some hfind
    simpa using this
  simp only [executeFeature, if_neg hactive, hfind]
  refine ⟨trivial, trivial, trivial, ?_, ?_, ?_, ?_⟩
  · exact List.mem_append_right _ ((hfailed msg hfail).2)
  · exact find_map_update s.store fid (runFeature env f).feature f hfind hid
  · exact (hfailed msg hfail).1
  · intro g hg hne
    refine List.mem_map.mpr ⟨g, hg, ?_⟩
    simp [hne]

/-- Witness for C4: a pending feature whose provider throws. -/
theorem c4_failure_isolated_witness :
    (executeFeature ⟨false, true, Except.ok (), .success "", .failure "Provider execution failed"⟩
        ⟨[{ id := "error-feature", status := FeatureStatus.pending }], [], [], true⟩
        "error-feature").2 = .ok () ∧
    (executeFeature ⟨false, true, Except.ok (), .success "", .failure "Provider execution failed"⟩
        ⟨[{ id := "error-feature", status := FeatureStatus.pending }], [], [], true⟩
        "error-feature").1.active = ([] : List String) ∧
    (executeFeature ⟨false, true, Except.ok (), .success "", .failure "Provider execution failed"⟩
        ⟨[{ id := "error-feature", status := FeatureStatus.pending }], [], [], true⟩
        "error-feature").1.autoLoopRunning = true ∧
    Event.errorEvent ({ id := "error-feature", status := FeatureStatus.pending } : Feature).id
        "Provider execution failed" ∈
      (executeFeature ⟨false, true, Except.ok (), .success "", .failure "Provider execution failed"⟩
        ⟨[{ id := "error-feature", status := FeatureStatus.pending }], [], [], true⟩
        "error-feature").1.events ∧
    (executeFeature ⟨false, true, Except.ok (), .success "", .failure "Provider execution failed"⟩
        ⟨[{ id := "error-feature", status := FeatureStatus.pending }], [], [], true⟩
        "error-feature").1.store.find? (fun g => g.id == "error-feature") =
      some (runFeature
        ⟨false, true, Except.ok (), .success "", .failure "Provider execution failed"⟩
        { id := "error-feature", status := FeatureStatus.pending }).feature ∧
    (runFeature ⟨false, true, Except.ok (), .success "", .failure "Provider execution failed"⟩
      { id := "error-feature", status := FeatureStatus.pending }).feature.status = .backlog ∧
    (∀ g, g ∈ [({ id := "error-feature", status := FeatureStatus.pending } : Feature)] →
      g.id ≠ "error-feature" →
      g ∈ (executeFeature
        ⟨false, true, Except.ok (), .success "", .failure "Provider execution failed"⟩
        ⟨[{ id := "error-feature", status := FeatureStatus.pending }], [], [], true⟩
        "error-feature").1.store) :=
  c4_failure_isolated
    ⟨false, true, Except.ok (), .success "", .failure "Provider execution failed"⟩
    ⟨[{ id := "error-feature", status := FeatureStatus.pending }], [], [], true⟩
    "error-feature" { id := "error-feature", status := FeatureStatus.pending }
    "Provider execution failed" (by simp) (by rfl) (by rfl)

/-- C6: a pending feature with `requirePlanApproval = false` and
`planningMode = lite` whose planning output contains `[PLAN_GENERATED]`
followed by further text proceeds to implementation without suspending:
no PendingApproval is registered, the outcome is a completed successful
run (not `suspendedForApproval`), and the final status is
`waiting_approval`. -/
theorem c6_lite_no_approval (env : RunEnv) (f : Feature) (text out : String)
    (hst : f.status = .pending)
    (hmode : f.planningMode = PlanningMode.lite)
    (happ : f.requirePlanApproval = false)
    (hgen : f.planGenerated = false)
    (hwt : worktreeStep env = Except.ok ())
    (hplan : env.planOutcome = .success text)
    (hmarker : hasTextAfterMarker PlanningMode.lite text = true)
    (himpl : env.implOutcome = .success out)
    (hreview : env.requireCompletionReview = true) :
    (runFeature env f).registeredApproval = false ∧
    (runFeature env f).outcome = .succeeded ∧
    (runFeature env f).feature.status = .waiting_approval := by
  have hd : detectMarker PlanningMode.lite text = true :=
    detect_of_hasTextAfter PlanningMode.lite text hmarker
  simp [runFeature, hwt, planningPhase, implPhase, hplan, himpl, hmode, happ, hgen,
    hreview, hd]

/-- Witness for C6 at the lite-planning scenario of the integration
tests. -/
theorem c6_lite_no_approval_witness :
    (runFeature
      ⟨false, true, Except.ok (),
        .success "[PLAN_GENERATED] Planning outline complete.\n\nFeature implemented",
        .success "Feature implemented"⟩
      { id := "lite-plan-feature", status := FeatureStatus.pending,
        planningMode := PlanningMode.lite }).registeredApproval = false ∧
    (runFeature
      ⟨false, true, Except.ok (),
        .success "[PLAN_GENERATED] Planning outline complete.\n\nFeature implemented",
        .success "Feature implemented"⟩
      { id := "lite-plan-feature", status := FeatureStatus.pending,
        planningMode := PlanningMode.lite }).outcome = .succeeded ∧
    (runFeature
      ⟨false, true, Except.ok (),
        .success "[PLAN_GENERATED] Planning outline complete.\n\nFeature implemented",
        .success "Feature implemented"⟩
      { id := "lite-plan-feature", status := FeatureStatus.pending,
        planningMode := PlanningMode.lite }).feature.status = .waiting_approval :=
  c6_lite_no_approval
    ⟨false, true, Except.ok (),
      .success "[PLAN_GENERATED] Planning outline complete.\n\nFeature implemented",
      .success "Feature implemented"⟩
    { id := "lite-plan-feature", status := FeatureStatus.pending,
      planningMode := PlanningMode.lite }
    "[PLAN_GENERATED] Planning outline complete.\n\nFeature implemented"
    "Feature implemented" rfl rfl rfl rfl rfl rfl (by decide) rfl rfl

/-! ## Theorems for the plan-approval registry (claim C5) -/

/-- C5: `resolvePlanApproval` fails with an error containing
`No pending approval` exactly when there is neither an in-memory pending
entry nor durable feature state indicating a generated, unapproved plan
(status `waiting_approval` with `planGenerated`); and whenever such
durable state exists it succeeds via recovery even with an empty
in-memory registry. -/
theorem c5_resolve_approval (s : ApprovalState) (fid : String) (approved : Bool)
    (editedPlan feedback : Option String) :
    (((resolvePlanApproval s fid approved editedPlan feedback).1.success = false ∧
        ∃ e, (resolvePlanApproval s fid approved editedPlan feedback).1.error = some e ∧
          strContains e "No pending approval" = true) ↔
      (lookupPending s.pendings fid = none ∧ recoverableFromStore s.store fid = false)) ∧
    (s.pendings = [] → recoverableFromStore s.store fid = true →
      (resolvePlanApproval s fid approved editedPlan feedback).1.success = true) := by
  rcases hlp : lookupPending s.pendings fid with _ | p
  · rcases hff : findFeature s.store fid with _ | f
    · constructor
      · simp [resolvePlanApproval, hlp, hff, recoverableFromStore]
        exact contains_noPendingMsg fid
      · intro hemp hrec
        rw [recoverableFromStore, hff] at hrec
        exact absurd hrec (by simp)
    · cases hcond : (f.status == FeatureStatus.waiting_approval && f.planGenerated)
      · constructor
        · simp [resolvePlanApproval, hlp, hff, hcond, recoverableFromStore]
          exact contains_noPendingMsg fid
        · intro hemp hrec
          rw [recoverableFromStore, hff] at hrec
          exact absurd hrec (by simp [hcond])
      · constructor
        · simp [resolvePlanApproval, hlp, hff, hcond, recoverableFromStore]
          cases approved <;> simp
        · intro hemp hrec
          cases approved <;> simp [resolvePlanApproval, hlp, hff, hcond]
  · constructor
    · simp [resolvePlanApproval, hlp, recoverableFromStore]
      cases approved <;> simp
    · intro hemp hrec
      rw [hemp] at hlp
      simp [lookupPending] at hlp

/-- Witness for C5: with an empty in-memory registry, resolution fails
with `No pending approval` for an id absent from durable storage, and
succeeds by recovery for an id whose durable record is in
`waiting_approval` with a generated plan. -/
theorem c5_resolve_approval_witness :
    ((((resolvePlanApproval ⟨[], []⟩ "non-existent" true none none).1.success = false ∧
        ∃ e, (resolvePlanApproval ⟨[], []⟩ "non-existent" true none none).1.error = some e ∧
          strContains e "No pending approval" = true) ↔
      (lookupPending [] "non-existent" = none ∧
        recoverableFromStore [] "non-existent" = false)) ∧
      (([] : List PendingApproval) = [] →
        recoverableFromStore [] "non-existent" = true →
        (resolvePlanApproval ⟨[], []⟩ "non-existent" true none none).1.success = true)) ∧
    ((((resolvePlanApproval
          ⟨[], [{ id := "f1", status := FeatureStatus.waiting_approval,
                  planningMode := PlanningMode.lite, requirePlanApproval := true,
                  planGenerated := true, planText := some "plan" }]⟩
          "f1" true none none).1.success = false ∧
        ∃ e, (resolvePlanApproval
          ⟨[], [{ id := "f1", status := FeatureStatus.waiting_approval,
                  planningMode := PlanningMode.lite, requirePlanApproval := true,
                  planGenerated := true, planText := some "plan" }]⟩
          "f1" true none none).1.error = some e ∧
          strContains e "No pending approval" = true) ↔
      (lookupPending [] "f1" = none ∧
        recoverableFromStore
          [{ id := "f1", status := FeatureStatus.waiting_approval,
             planningMode := PlanningMode.lite, requirePlanApproval := true,
             planGenerated := true, planText := some "plan" }] "f1" = false)) ∧
      (([] : List PendingApproval) = [] →
        recoverableFromStore
          [{ id := "f1", status := FeatureStatus.waiting_approval,
             planningMode := PlanningMode.lite, requirePlanApproval := true,
             planGenerated := true, planText := some "plan" }] "f1" = true →
        (resolvePlanApproval
          ⟨[], [{ id := "f1", status := FeatureStatus.waiting_approval,
                  planningMode := PlanningMode.lite, requirePlanApproval := true,
                  planGenerated := true, planText := some "plan" }]⟩
          "f1" true none none).1.success = true)) :=
  ⟨c5_resolve_approval ⟨[], []⟩ "non-existent" true none none,
    c5_resolve_approval
      ⟨[], [{ id := "f1", status := FeatureStatus.waiting_approval,
              planningMode := PlanningMode.lite, requirePlanApproval := true,
              planGenerated := true, planText := some "plan" }]⟩
      "f1" true none none⟩

/-! ## Theorems for the auto loop (claim C2) -/

/-- One auto-loop transition preserves the concurrency ceiling and keeps
the active count below it. -/
theorem autoStep_inv (n : Nat) (t u : AutoLoopState) (h : AutoStep t u)
    (hmax : t.maxConcurrency = n) (hlen : t.active.length ≤ n) :
    u.maxConcurrency = n ∧ u.active.length ≤ n := by
  cases h with
  | dispatch f hmem hpending hnotactive hcap =>
    refine ⟨hmax, ?_⟩
    simpa using Nat.succ_le_of_lt (hmax ▸ hcap)
  | finish fid st hactive hterm =>
    exact ⟨hmax, le_trans (List.Sublist.length_le (List.erase_sublist _ _)) hlen⟩

/-- Every state the auto loop reaches from an idle start respects the
ceiling. -/
theorem autoloop_reach_cap (n : Nat) (s0 s : AutoLoopState)
    (hmax : s0.maxConcurrency = n) (hstart : s0.active = [])
    (h : Relation.ReflTransGen AutoStep s0 s) :
    s.maxConcurrency = n ∧ s.active.length ≤ n := by
  induction h with
  | refl => exact ⟨hmax, by simp [hstart]⟩
  | tail hsteps hstep ih => exact autoStep_inv n _ _ hstep ih.1 ih.2

/-- A transition that removes an id from the active set is a `finish`
step for that id writing a run-terminal status. -/
theorem autoStep_release (t u : AutoLoopState) (h : AutoStep t u) (fid : String)
    (hin : fid ∈ t.active) (hout : fid ∉ u.active) :
    ∃ st, isRunExit st = true ∧ u.store = setStatus t.store fid st ∧
      u.active = t.active.erase fid := by
  cases h with
  | dispatch f hmem hpending hnotactive hcap =>
    exact absurd (List.mem_cons_of_mem _ hin) hout
  | finish fid0 st hactive hterm =>
    have heq : fid = fid0 := by
      by_contra hne
      exact hout ((List.mem_erase_of_ne hne).mpr hin)
    subst heq
    exact ⟨st, hterm, rfl, rfl⟩

/-- C2: from an auto loop started with ceiling `N ≥ 1` over a store with
at least N pending features and no active execution, every reachable
state has at most N simultaneously active executions (the ceiling is a
hard cap, never exceeded even transiently), and a slot is released only
by a transition that records a run-terminal status for the finished
feature. -/
theorem c2_concurrency_cap (n : Nat) (s0 : AutoLoopState)
    (hn : 1 ≤ n) (hmax : s0.maxConcurrency = n) (hstart : s0.active = [])
    (hpending : n ≤ (s0.store.filter (fun f => f.status == FeatureStatus.pending)).length) :
    (∀ s, Relation.ReflTransGen AutoStep s0 s → s.active.length ≤ n) ∧
    (∀ t u, AutoStep t u → ∀ fid, fid ∈ t.active → fid ∉ u.active →
      ∃ st, isRunExit st = true ∧ u.store = setStatus t.store fid st ∧
        u.active = t.active.erase fid) :=
  ⟨fun s hs => (autoloop_reach_cap n s0 s hmax hstart hs).2,
    fun t u h fid hin hout => autoStep_release t u h fid hin hout⟩

/-- Witness for C2 at ceiling 1 over one pending feature. -/
theorem c2_concurrency_cap_witness :
    (∀ s, Relation.ReflTransGen AutoStep
        { maxConcurrency := 1,
          store := [{ id := "f1", status := FeatureStatus.pending }], active := [] } s →
      s.active.length ≤ 1) ∧
    (∀ t u, AutoStep t u → ∀ fid, fid ∈ t.active → fid ∉ u.active →
      ∃ st, isRunExit st = true ∧ u.store = setStatus t.store fid st ∧
        u.active = t.active.erase fid) :=
  c2_concurrency_cap 1
    { maxConcurrency := 1,
      store := [{ id := "f1", status := FeatureStatus.pending }], active := [] }
    (by decide) rfl rfl (by decide)

end Automaker
